import Mathlib

/-!
Verification of the dynamic memory allocator in `mm.c` (explicit free list,
boundary tags, first-fit, LIFO insertion), shallowly embedded for a 64-bit
machine: `W = sizeof(void *) = 8`.

Modelling decisions, all taken from the source:
* Memory is an array of 8-byte cells addressed by their (8-aligned) byte
  address; every header/footer/link access in the source is 8-aligned.
  `GET`/`PUT` in the source go through `*(int *)`, i.e. they read and write
  only the low 32 bits of a cell; the link macros `PREV_FREEP`/`NEXT_FREEP`
  go through `*(void **)` and read/write the full 8 bytes.
* Addresses are `Nat`; `NULL` is `0`.  Pointer arithmetic is plain `Nat`
  arithmetic: C's `uintptr_t` wrap-around modulo `2 ^ 64` is replaced by
  unbounded addition and truncated subtraction, which agree with C for every
  address inside the arena; a computation that leaves the arena produces an
  out-of-bounds address on both sides (wrapped in C, out of range here) and
  the next access to it faults.  The `size_t` values read from headers keep
  their exact C semantics, including the sign extension of `GET_SIZE`.
* The arena provider (`mem_sbrk` of `memlib`, not part of this repository)
  is modelled from the spec: it appends `n` fresh zero bytes to a contiguous
  arena starting at address 16 and reports failure (the error sentinel,
  detected by both call sites of the source) when a fixed capacity `cap`
  would be exceeded.  It also logs the byte counts requested, so that the
  theorems can speak about what `mm_init` asks of the provider.
* A memory access below the arena base (in particular any access through a
  `NULL` block pointer, whose header would sit at address `0 - 8`) or beyond
  the current break is undefined behaviour in the source.  The model keeps a
  sticky `ok` flag in the state: any such access clears it (reads then
  return 0), and no theorem draws conclusions about the memory of a state
  whose flag is cleared — a cleared flag is the model's verdict that the
  source ran into undefined behaviour.  Exhausting the fuel of a loop also
  clears the flag, so `ok = true` states come only from runs that completed
  normally.
-/

namespace MM

/-- `2 ^ 64`, the modulus of `uintptr_t` / `size_t` arithmetic. -/
def M64 : Nat := 18446744073709551616

/-- `2 ^ 32`, the modulus of `int`-sized stores (`PUT` writes through `int *`). -/
def M32 : Nat := 4294967296

/-- `2 ^ 31`: `int` values with bit 31 set are negative. -/
def I32 : Nat := 2147483648

/-- Word and header/footer size in bytes: `sizeof(void *)` on a 64-bit machine. -/
def WSIZE : Nat := 8

/-- Double-word size: `2 * WSIZE`. -/
def DSIZE : Nat := 16

/-- `CHUNKSIZE` is the macro body `1<<12`; parenthesised uses equal 4096. -/
def CHUNKSIZE : Nat := 1 <<< 12

/-- Minimum block size: `6 * WSIZE`. -/
def MINIMUM : Nat := 6 * WSIZE

/-- `ALIGNMENT` is `2 * sizeof(void *)`. -/
def ALIGNMENT : Nat := 2 * WSIZE

/-- Low 32 bits of a stored 8-byte cell: the bit pattern an `int` read returns. -/
def low32 (w : Nat) : Nat := w % M32

/-- `GET_SIZE`: the bit pattern of `GET(p) & ~0x7` (an `int` with the low 3
bits cleared); clearing the low 3 bits of a value below `2 ^ 32` is division
and multiplication by 8. -/
def sizeBits (w : Nat) : Nat := low32 w / 8 * 8

/-- The value of `GET_SIZE(p)` once it is used as a `size_t` or added to a
pointer: the 32-bit `int` result is sign-extended, so patterns with bit 31
set become huge unsigned values. -/
def sizeAsU64 (w : Nat) : Nat :=
  if sizeBits w < I32 then sizeBits w else M64 - M32 + sizeBits w

/-- `GET_ALLOC`: `GET(p) & 0x1`. -/
def allocBit (w : Nat) : Nat := low32 w % 2

/-- `PACK(size, alloc)`: `(size) | (alloc)`. -/
def PACK (size alloc : Nat) : Nat := size ||| alloc

/-- Pointer addition.  C pointer arithmetic wraps modulo `2 ^ 64`; on `Nat`
the sum simply exceeds every valid address when it leaves the arena, and the
bounds check of `GETw`/`PUTw` faults on it just as the wrapped C address
would fault.  All in-arena computations agree with C exactly. -/
def addAddr (a b : Nat) : Nat := a + b

/-- Pointer subtraction.  `Nat` subtraction truncates at 0 where C would
wrap to an address near `2 ^ 64`; both results are outside the arena, so
the bounds check faults on either.  All in-arena computations agree with C
exactly. -/
def subAddr (a b : Nat) : Nat := a - b

/-- The `ALIGN` macro: `(((size_t)(p) + (ALIGNMENT-1) + DSIZE) & ~0x7)`.
Note the mask is `~0x7`, clearing only the low 3 bits. -/
def ALIGN (s : Nat) : Nat := ((s + (ALIGNMENT - 1) + DSIZE) % M64) / 8 * 8

/-- Allocator state: the arena cells, the current break, the provider
capacity, the two global anchors of `mm.c`, the log of byte counts the
provider has been asked for, and the undefined-behaviour flag. -/
structure St where
  memw : Nat → Nat
  brk : Nat
  cap : Nat
  heap_listp : Nat
  free_listp : Nat
  reqs : List Nat
  ok : Bool

/-- The lowest valid arena address.  The provider starts handing out bytes
at address 16 (a double-word aligned base, as `memlib` produces in practice);
everything below it, in particular the header address `0 - WSIZE` computed
from a `NULL` block pointer, is outside the arena. -/
def BASE : Nat := 16

/-- The cell at address `a` is inside the arena owned so far. -/
def inArena (st : St) (a : Nat) : Prop := BASE ≤ a ∧ a + 8 ≤ st.brk

instance (st : St) (a : Nat) : Decidable (inArena st a) := by
  unfold inArena; infer_instance

/-- Read the 8-byte cell at address `a`; out of bounds clears `ok`. -/
def GETw (st : St) (a : Nat) : Nat × St :=
  if inArena st a then (st.memw a, st) else (0, { st with ok := false })

/-- Write the 8-byte cell at address `a`; out of bounds clears `ok`. -/
def PUTw (st : St) (a v : Nat) : St :=
  if inArena st a then
    { st with memw := fun x => if x = a then v % M64 else st.memw x }
  else { st with ok := false }

/-- `PUT(p, val)`: `*(int *)(p) = (val)` — replaces only the low 32 bits of
the cell, keeping the high half (little-endian layout). -/
def PUT (st : St) (p v : Nat) : St :=
  let (old, st1) := GETw st p
  PUTw st1 p (old / M32 * M32 + low32 v)

/-- `GET(p)` followed by `& ~0x7`, as used for a `size_t`/pointer offset. -/
def getSize (st : St) (p : Nat) : Nat × St :=
  let (w, st1) := GETw st p
  (sizeAsU64 w, st1)

/-- `GET_ALLOC(p)`: `GET(p) & 0x1`. -/
def getAlloc (st : St) (p : Nat) : Nat × St :=
  let (w, st1) := GETw st p
  (allocBit w, st1)

/-- A full 8-byte pointer read, as in `PREV_FREEP`/`NEXT_FREEP`. -/
def getPtr (st : St) (p : Nat) : Nat × St := GETw st p

/-- A full 8-byte pointer write, as in `PREV_FREEP(x) = v`. -/
def putPtr (st : St) (p v : Nat) : St := PUTw st p (v % M64)

/-- `HDRP(bp)`: `(void *)(bp) - WSIZE`. -/
def hdrp (bp : Nat) : Nat := subAddr bp WSIZE

/-- `FTRP(bp)`: `(void *)(bp) + GET_SIZE(HDRP(bp)) - DSIZE` (reads the
current header). -/
def ftrp (st : St) (bp : Nat) : Nat × St :=
  let (s, st1) := getSize st (hdrp bp)
  (subAddr (addAddr bp s) DSIZE, st1)

/-- `NEXT_BLKP(bp)`: `(void *)(bp) + GET_SIZE(HDRP(bp))`. -/
def nextBlkp (st : St) (bp : Nat) : Nat × St :=
  let (s, st1) := getSize st (hdrp bp)
  (addAddr bp s, st1)

/-- `PREV_BLKP(bp)`: `(void *)(bp) - GET_SIZE(HDRP(bp) - WSIZE)`. -/
def prevBlkp (st : St) (bp : Nat) : Nat × St :=
  let (s, st1) := getSize st (subAddr (hdrp bp) WSIZE)
  (subAddr bp s, st1)

/-- Modelled from the spec: the arena provider's `mem_sbrk` (in `memlib`,
outside this repository).  Grows the arena by `incr` fresh (zero) bytes and
returns the old break, or reports failure (`none`, the error sentinel both
call sites of the source detect) when the capacity would be exceeded; the
request is logged either way. -/
def mem_sbrk (st : St) (incr : Nat) : Option Nat × St :=
  if st.brk + incr ≤ st.cap then
    (some st.brk, { st with brk := st.brk + incr, reqs := st.reqs ++ [incr] })
  else
    (none, { st with reqs := st.reqs ++ [incr] })

/-- `add(bp)`: LIFO insertion at the front of the explicit free list. -/
def add (st0 : St) (bp : Nat) : St :=
  let st1 := putPtr st0 (addAddr bp DSIZE) st0.free_listp
  let st2 := putPtr st1 st1.free_listp bp
  let st3 := putPtr st2 bp 0
  { st3 with free_listp := bp }

/-- `delete(bp)`: unlink from the explicit free list.  The source's second
statement re-reads `NEXT_FREEP(bp)` and `PREV_FREEP(bp)` after the first
statement's write, which the model reproduces. -/
def delete (st0 : St) (bp : Nat) : St :=
  let (pf, st1) := getPtr st0 bp
  let st2 :=
    if pf ≠ 0 then
      let (nf, st1a) := getPtr st1 (addAddr bp DSIZE)
      putPtr st1a (addAddr pf DSIZE) nf
    else
      let (nf, st1a) := getPtr st1 (addAddr bp DSIZE)
      { st1a with free_listp := nf }
  let (nf2, st3) := getPtr st2 (addAddr bp DSIZE)
  let (pf2, st4) := getPtr st3 bp
  putPtr st4 nf2 pf2

/-- The three merge cases of `coalesce`, before the final `add`.  Mirrors
the source statement by statement, recomputing every macro occurrence (so
writes performed by `delete` are visible to later reads, exactly as in C). -/
def coalesceMerge (st0 : St) (bp0 : Nat) : Nat × St :=
  let (pb, sa1) := prevBlkp st0 bp0
  let (fpb, sa2) := ftrp sa1 pb
  let (pa, sa3) := getAlloc sa2 fpb
  let prev_alloc : Bool := pa != 0 || pb == bp0
  let (nb0, sa4) := nextBlkp sa3 bp0
  let (na, sa5) := getAlloc sa4 (hdrp nb0)
  let next_alloc : Bool := na != 0
  let (size0, sa6) := getSize sa5 (hdrp bp0)
  if prev_alloc && !next_alloc then
    let (nb1, sb1) := nextBlkp sa6 bp0
    let (ns, sb2) := getSize sb1 (hdrp nb1)
    let size := (size0 + ns) % M64
    let (nb2, sb3) := nextBlkp sb2 bp0
    let sb4 := delete sb3 nb2
    let sb5 := PUT sb4 (hdrp bp0) (PACK size 0)
    let (f, sb6) := ftrp sb5 bp0
    let sb7 := PUT sb6 f (PACK size 0)
    (bp0, sb7)
  else if !prev_alloc && next_alloc then
    let (pb1, sc1) := prevBlkp sa6 bp0
    let (ps, sc2) := getSize sc1 (hdrp pb1)
    let size := (size0 + ps) % M64
    let (pb2, sc3) := prevBlkp sc2 bp0
    let sc4 := delete sc3 pb2
    let sc5 := PUT sc4 (hdrp pb2) (PACK size 0)
    let (f, sc6) := ftrp sc5 pb2
    let sc7 := PUT sc6 f (PACK size 0)
    (pb2, sc7)
  else if !prev_alloc && !next_alloc then
    let (pb1, sd1) := prevBlkp sa6 bp0
    let (ps, sd2) := getSize sd1 (hdrp pb1)
    let (nb1, sd3) := nextBlkp sd2 bp0
    let (ns, sd4) := getSize sd3 (hdrp nb1)
    let size := (size0 + ps + ns) % M64
    let (pb2, sd5) := prevBlkp sd4 bp0
    let sd6 := delete sd5 pb2
    let (nb2, sd7) := nextBlkp sd6 bp0
    let sd8 := delete sd7 nb2
    let (pb3, sd9) := prevBlkp sd8 bp0
    let sda := PUT sd9 (hdrp pb3) (PACK size 0)
    let (f, sdb) := ftrp sda pb3
    let sdc := PUT sdb f (PACK size 0)
    (pb3, sdc)
  else
    (bp0, sa6)

/-- `coalesce(bp)`: the merge cases, then exactly one `add(bp)` and
`return bp` (the source ends every path with the single trailing
`add(bp); return bp;`). -/
def coalesce (st0 : St) (bp0 : Nat) : Nat × St :=
  let (bp1, st1) := coalesceMerge st0 bp0
  (bp1, add st1 bp1)

/-- The `for` loop of `findFit`: walk `next_free` links until a block whose
allocated bit is set; return the first block with `asize <= GET_SIZE`, else
`NULL` (0).  Running out of fuel clears `ok`.
The body of one loop iteration is `findFitStep`; `rec` continues the loop. -/
def findFitStep (asize : Nat) (rec : St → Nat → Nat × St) (st : St) (bp : Nat) :
    Nat × St :=
  let (a, st1) := getAlloc st (hdrp bp)
  if a = 0 then
    let (s, st2) := getSize st1 (hdrp bp)
    if asize ≤ s then (bp, st2)
    else
      let (nxt, st3) := getPtr st2 (addAddr bp DSIZE)
      rec st3 nxt
  else (0, st1)

def findFitLoop (asize : Nat) : Nat → St → Nat → Nat × St
  | 0 => fun st _ => (0, { st with ok := false })
  | fuel + 1 => findFitStep asize (findFitLoop asize fuel)

/-- `findFit(asize)`: first-fit search from `free_listp`. -/
def findFit (st : St) (fuel asize : Nat) : Nat × St :=
  findFitLoop asize fuel st st.free_listp

/-- `place(bp, asize)`: split when the remainder is at least `MINIMUM`
(`csize - asize` is `size_t` subtraction), else allocate the whole block. -/
def place (st0 : St) (bp asize : Nat) : St :=
  let (csize, sa1) := getSize st0 (hdrp bp)
  if MINIMUM ≤ subAddr csize asize then
    let sb1 := PUT sa1 (hdrp bp) (PACK asize 1)
    let (f1, sb2) := ftrp sb1 bp
    let sb3 := PUT sb2 f1 (PACK asize 1)
    let sb4 := delete sb3 bp
    let (bp2, sb5) := nextBlkp sb4 bp
    let sb6 := PUT sb5 (hdrp bp2) (PACK (subAddr csize asize) 0)
    let (f2, sb7) := ftrp sb6 bp2
    let sb8 := PUT sb7 f2 (PACK (subAddr csize asize) 0)
    (coalesce sb8 bp2).2
  else
    let sc1 := PUT sa1 (hdrp bp) (PACK csize 1)
    let (f1, sc2) := ftrp sc1 bp
    let sc3 := PUT sc2 f1 (PACK csize 1)
    delete sc3 bp

/-- `extendHeap(words)`: round up to an even word count, floor at `MINIMUM`,
obtain the bytes, lay a free block over them (its header lands on the word
before the granted region), write the new epilogue, coalesce.  Returns
`NULL` (0) when the provider fails. -/
def extendHeap (st0 : St) (words : Nat) : Nat × St :=
  let size0 := if words % 2 = 1 then (words + 1) * WSIZE else words * WSIZE
  let size := if size0 < MINIMUM then MINIMUM else size0
  match mem_sbrk st0 size with
  | (none, st1) => (0, st1)
  | (some bp, st1) =>
    let st2 := PUT st1 (hdrp bp) (PACK size 0)
    let (f, st3) := ftrp st2 bp
    let st4 := PUT st3 f (PACK size 0)
    let (nb, st5) := nextBlkp st4 bp
    let st6 := PUT st5 (hdrp nb) (PACK 0 1)
    coalesce st6 bp

/-- `mm_init()`: obtain `2 * MINIMUM` bytes, lay out padding, prologue
(header, two zeroed words, footer) and epilogue, point `free_listp` just
past the prologue header, then extend the heap by `CHUNKSIZE / WSIZE`
"words".  The macro body of `CHUNKSIZE` is `1<<12` without parentheses, so
this argument parses as `1 << (12 / 8) = 2` words, which `extendHeap`
floors to a `MINIMUM`-byte (48-byte) extension — not 4096 bytes. -/
def mm_init (st0 : St) : Int × St :=
  match mem_sbrk st0 (2 * MINIMUM) with
  | (none, st1) => (-1, st1)
  | (some hl, st1) =>
    let st2 := { st1 with heap_listp := hl }
    let st3 := PUT st2 hl 0
    let st4 := PUT st3 (hl + 1 * WSIZE) (PACK MINIMUM 1)
    let st5 := PUT st4 (hl + 2 * WSIZE) 0
    let st6 := PUT st5 (hl + 3 * WSIZE) 0
    let st7 := PUT st6 (hl + MINIMUM) (PACK MINIMUM 1)
    let st8 := PUT st7 (hl + WSIZE + MINIMUM) (PACK 0 1)
    let st9 := { st8 with free_listp := hl + DSIZE }
    let (e, st10) := extendHeap st9 (1 <<< (12 / WSIZE))
    if e = 0 then (-1, st10) else (0, st10)

/-- `mm_malloc(size)`: adjust the request with `ALIGN` and the `MINIMUM`
floor, first-fit search, place on hit; otherwise extend by
`MAX(asize, CHUNKSIZE)` bytes and place. -/
def mm_malloc (st0 : St) (fuel size : Nat) : Nat × St :=
  if size = 0 then (0, st0)
  else
    let asize := max (ALIGN size) MINIMUM
    let (bp, st1) := findFit st0 fuel asize
    if bp ≠ 0 then (bp, place st1 bp asize)
    else
      let extendsize := max asize CHUNKSIZE
      let (bp2, st2) := extendHeap st1 (extendsize / WSIZE)
      if bp2 = 0 then (0, st2)
      else (bp2, place st2 bp2 asize)

/-- `mm_free(bp)`: no-op on `NULL`, else clear the allocated bit in header
and footer and coalesce. -/
def mm_free (st0 : St) (bp : Nat) : St :=
  if bp = 0 then st0
  else
    let (size, st1) := getSize st0 (hdrp bp)
    let st2 := PUT st1 (hdrp bp) (PACK size 0)
    let (f, st3) := ftrp st2 bp
    let st4 := PUT st3 f (PACK size 0)
    (coalesce st4 bp).2

/-- One byte of memory, little-endian within its 8-byte cell. -/
def readByte (st : St) (a : Nat) : Nat × St :=
  let (w, st1) := GETw st (a - a % 8)
  (w / 2 ^ (8 * (a % 8)) % 256, st1)

/-- Write one byte, little-endian within its 8-byte cell. -/
def writeByte (st : St) (a b : Nat) : St :=
  let (w, st1) := GETw st (a - a % 8)
  let lo := w % 2 ^ (8 * (a % 8))
  let hi := w / 2 ^ (8 * (a % 8) + 8) * 2 ^ (8 * (a % 8) + 8)
  PUTw st1 (a - a % 8) (hi + b % 256 * 2 ^ (8 * (a % 8)) + lo)

/-- `memcpy(dst, src, n)` on the arena, byte by byte. -/
def memcpy (st : St) (dst src : Nat) : Nat → St
  | 0 => st
  | n + 1 =>
    let (b, st1) := readByte st src
    let st2 := writeByte st1 dst b
    memcpy st2 (dst + 1) (src + 1) n

/-- The shared `else` block of `mm_realloc`'s grow path: allocate `newsize`
bytes, `place` the result again (with no check that the allocation
succeeded), copy `newsize` bytes, free the old block. -/
def reallocElse (st0 : St) (fuel bp newsize : Nat) : Nat × St :=
  let (np, st1) := mm_malloc st0 fuel newsize
  let st2 := place st1 np newsize
  let st3 := memcpy st2 np bp newsize
  let st4 := mm_free st3 bp
  (np, st4)

/-- `mm_realloc(bp, size)`.  `(int)size < 0` is the truncation of `size` to
its low 32 bits read as a signed `int`; `(int)size == 0` likewise.  The
in-place grow path absorbs a free next block when large enough; otherwise
`reallocElse` runs. -/
def mm_realloc (st0 : St) (fuel bp size : Nat) : Nat × St :=
  if I32 ≤ low32 size then (0, st0)
  else if low32 size = 0 then (0, mm_free st0 bp)
  else if 0 < size then
    let (oldsize, st1) := getSize st0 (hdrp bp)
    let newsize := (size + 2 * WSIZE) % M64
    if newsize ≤ oldsize then (bp, st1)
    else
      let (nb0, st2) := nextBlkp st1 bp
      let (na, st3) := getAlloc st2 (hdrp nb0)
      if na = 0 then
        let (nb1, st4) := nextBlkp st3 bp
        let (ns, st5) := getSize st4 (hdrp nb1)
        let csize := (oldsize + ns) % M64
        if newsize ≤ csize then
          let (nb2, st6) := nextBlkp st5 bp
          let st7 := delete st6 nb2
          let st8 := PUT st7 (hdrp bp) (PACK csize 1)
          let (f, st9) := ftrp st8 bp
          let sta := PUT st9 f (PACK csize 1)
          (bp, sta)
        else reallocElse st5 fuel bp newsize
      else reallocElse st3 fuel bp newsize
  else (0, st0)

/-! ### Observers

Pure read-only views of a state, used to phrase specification-level
properties (they are not translations of source code; `freeChain` follows
the spec's description of the free-list walk: from `free_head` along
`next_free`, terminating at the first block whose allocated bit is set). -/

/-- Read a cell without touching the state; `none` out of bounds. -/
def wread (st : St) (a : Nat) : Option Nat :=
  if inArena st a then some (st.memw a) else none

/-- The free list as a list of block addresses: walk `next_free` links from
`bp` until a block whose allocated bit is set (the sentinel boundary).
`none` when the walk leaves the arena or does not terminate within fuel.
One step of the walk is `freeChainStep`; `rec` continues the walk. -/
def freeChainStep (st : St) (rec : Nat → Option (List Nat)) (bp : Nat) :
    Option (List Nat) :=
  match wread st (hdrp bp) with
  | none => none
  | some w =>
    if allocBit w = 0 then
      match wread st (addAddr bp DSIZE) with
      | none => none
      | some nxt => (rec nxt).map (fun l => bp :: l)
    else some []

def freeChain (st : St) : Nat → Nat → Option (List Nat)
  | 0 => fun _ => none
  | fuel + 1 => freeChainStep st (freeChain st fuel)

/-- The block size stored at the header of `bp` (0 if out of bounds). -/
def sizeAtD (st : St) (bp : Nat) : Nat := sizeAsU64 ((wread st (hdrp bp)).getD 0)

/-- Total bytes on the free list: the sum of the block sizes reached by the
free-list walk from `free_listp`. -/
def freeListBytes (st : St) (fuel : Nat) : Option Nat :=
  (freeChain st fuel st.free_listp).map (fun l => (l.map (sizeAtD st)).sum)

/-- Walk the arena by block sizes from `bp` and check that no free block is
followed by a free arena neighbor; stops at a zero-size (epilogue) header.
One step of the walk is `noAdjacentFreeStep`; `rec` continues the walk. -/
def noAdjacentFreeStep (st : St) (rec : Nat → Option Bool) (bp : Nat) :
    Option Bool :=
  match wread st (hdrp bp) with
  | none => none
  | some w =>
    if sizeBits w = 0 then some true
    else
      let nb := addAddr bp (sizeAsU64 w)
      match wread st (hdrp nb) with
      | none => none
      | some w2 =>
        if allocBit w = 0 ∧ allocBit w2 = 0 then some false
        else rec nb

def noAdjacentFree (st : St) : Nat → Nat → Option Bool
  | 0 => fun _ => none
  | fuel + 1 => noAdjacentFreeStep st (noAdjacentFree st fuel)

/-- A fresh pre-`mm_init` state over a provider with capacity `cap`. -/
def st0 (cap : Nat) : St :=
  { memw := fun _ => 0, brk := BASE, cap := cap, heap_listp := 0,
    free_listp := 0, reqs := [], ok := true }

/-! ### Concrete runs used by the counterexamples -/

/-- Run `init` then two `allocate(32)` calls (provider capacity 4256 bytes,
enough for the 96-byte and 48-byte initialization requests and one 4096-byte
extension). -/
def c1Run : Nat × St := mm_malloc (mm_malloc (mm_init (st0 4256)).2 50 32).2 50 32

/-- Run `init` with a provider of exactly 160 bytes (the initialization
consumes all of it) and then `allocate(1)`, which is served from the initial
free block at address 112. -/
def c2Base : St := (mm_malloc (mm_init (st0 160)).2 50 1).2

/-- From `c2Base`, `reallocate(112, 100)`: the old block holds 48 bytes,
`newsize = 116` exceeds it, the next block (the epilogue) is allocated, so
the grow path calls `allocate(116)`, which fails (the provider is
exhausted), and the code passes the `NULL` result straight to `place`. -/
def c2Run : Nat × St := mm_realloc c2Base 50 112 100

/-- The state after `init` with an ample provider. -/
def c9Init : St := (mm_init (st0 100000)).2

/-- `allocate(n)` followed by `free` of the returned pointer, from the
post-`init` state. -/
def c9Round (n : Nat) : St :=
  let p := mm_malloc c9Init 50 n
  mm_free p.2 p.1

/-! ### Arithmetic helper lemmas -/

lemma sizeBits_lt_M32 (w : Nat) : sizeBits w < M32 := by
  simp only [sizeBits, low32, M32]
  omega

lemma sizeBits_small {w : Nat} (h1 : w < I32) (h8 : w % 8 = 0) : sizeBits w = w := by
  simp only [sizeBits, low32, M32, I32] at *
  omega

lemma sizeAsU64_small {w : Nat} (h1 : w < I32) (h8 : w % 8 = 0) : sizeAsU64 w = w := by
  have hb := sizeBits_small h1 h8
  simp [sizeAsU64, hb, h1]

lemma sizeAsU64_mod8 (w : Nat) : sizeAsU64 w % 8 = 0 := by
  have h : sizeBits w % 8 = 0 := by simp only [sizeBits]; omega
  simp only [sizeAsU64]
  split
  · exact h
  · simp only [M64, M32] at *; omega

lemma subAddr_sizeAsU64_mod8 {bp : Nat} (w : Nat) (hb : bp % 8 = 0) :
    subAddr bp (sizeAsU64 w) % 8 = 0 := by
  have h8 := sizeAsU64_mod8 w
  simp only [subAddr]
  omega

lemma PACK_zero (s : Nat) : PACK s 0 = s := by
  simp [PACK]

lemma PACK_one_even (s : Nat) (h : s % 2 = 0) : PACK s 1 = s + 1 := by
  unfold PACK
  apply Nat.eq_of_testBit_eq
  intro i
  rw [Nat.testBit_lor]
  cases i with
  | zero =>
    simp only [Nat.testBit_zero]
    have h0 : ¬ (s % 2 = 1) := by omega
    have h1 : (s + 1) % 2 = 1 := by omega
    simp [h0, h1]
  | succ j =>
    rw [Nat.testBit_succ, Nat.testBit_succ, Nat.testBit_succ]
    have h2 : (s + 1) / 2 = s / 2 := by omega
    have h3 : (1 : Nat) / 2 = 0 := rfl
    rw [h2, h3]
    simp

/-! ### Memory access lemmas -/

lemma wread_some_inArena {st : St} {a w : Nat} (h : wread st a = some w) :
    inArena st a := by
  by_cases hc : inArena st a
  · exact hc
  · simp [wread, hc] at h

lemma wread_some_val {st : St} {a w : Nat} (h : wread st a = some w) :
    st.memw a = w := by
  have hc := wread_some_inArena h
  simpa [wread, hc] using h

lemma GETw_of_wread {st : St} {a w : Nat} (h : wread st a = some w) :
    GETw st a = (w, st) := by
  have hc := wread_some_inArena h
  have hv := wread_some_val h
  simp [GETw, hc, hv]

lemma getSize_of_wread {st : St} {p w : Nat} (h : wread st p = some w) :
    getSize st p = (sizeAsU64 w, st) := by
  simp [getSize, GETw_of_wread h]

lemma getAlloc_of_wread {st : St} {p w : Nat} (h : wread st p = some w) :
    getAlloc st p = (allocBit w, st) := by
  simp [getAlloc, GETw_of_wread h]

lemma getPtr_of_wread {st : St} {p w : Nat} (h : wread st p = some w) :
    getPtr st p = (w, st) := by
  simp [getPtr, GETw_of_wread h]

lemma PUTw_brk (st : St) (a v : Nat) : (PUTw st a v).brk = st.brk := by
  simp only [PUTw]
  split <;> rfl

lemma PUTw_free_listp (st : St) (a v : Nat) :
    (PUTw st a v).free_listp = st.free_listp := by
  simp only [PUTw]
  split <;> rfl

lemma PUTw_ok {st : St} {a : Nat} (v : Nat) (h : inArena st a) :
    (PUTw st a v).ok = st.ok := by
  simp [PUTw, h]

lemma inArena_PUTw (st : St) (a v b : Nat) :
    inArena (PUTw st a v) b ↔ inArena st b := by
  simp [inArena, PUTw_brk]

lemma wread_PUTw_self {st : St} {a : Nat} {v : Nat} (h : inArena st a)
    (hv : v < M64) : wread (PUTw st a v) a = some v := by
  obtain ⟨ha1, ha2⟩ := h
  simp [wread, inArena, PUTw, ha1, ha2, Nat.mod_eq_of_lt hv]

lemma wread_PUTw_ne {st : St} {a b : Nat} (v : Nat) (h : b ≠ a) :
    wread (PUTw st a v) b = wread st b := by
  have hb : (PUTw st a v).brk = st.brk := PUTw_brk st a v
  have hm : (PUTw st a v).memw b = st.memw b := by
    simp only [PUTw]
    split
    · simp [h]
    · rfl
  simp [wread, inArena, hb, hm]

lemma putPtr_small {st : St} {p v : Nat} (hv : v < M64) :
    putPtr st p v = PUTw st p v := by
  simp [putPtr, Nat.mod_eq_of_lt hv]

lemma PUT_of_wread {st : St} {p w : Nat} (v : Nat) (h : wread st p = some w)
    (hw : w < M32) (hv : v < M32) : PUT st p v = PUTw st p v := by
  simp only [PUT, GETw_of_wread h]
  have h1 : w / M32 * M32 + low32 v = v := by
    simp only [low32, M32] at *
    omega
  rw [h1]

set_option maxRecDepth 8000

set_option maxHeartbeats 1000000

/-! ### Claim C10 -/

/-- C10: `reallocate` decides the "negative size" rejection by truncating
`size` to a 32-bit signed `int`: for every state, block pointer and every
`size` whose low 32 bits form a negative `int` (i.e. are at least `2^31`),
`mm_realloc` returns `NULL` and leaves the allocator state unchanged. -/
theorem c10_realloc_int_truncation (st : St) (fuel bp size : Nat)
    (h : I32 ≤ low32 size) : mm_realloc st fuel bp size = (0, st) := by
  unfold mm_realloc
  rw [if_pos h]

/-- Witness for C10 at `size = 2^31` (a valid positive `size_t`) against the
concrete allocator state `c2Base` and its allocated block at 112. -/
theorem c10_realloc_int_truncation_witness :
    (0 : Nat) < 2147483648 ∧ mm_realloc c2Base 50 112 2147483648 = (0, c2Base) :=
  ⟨by decide, c10_realloc_int_truncation c2Base 50 112 2147483648 (by decide)⟩

/-! ### Claim C8 -/

/-- C8: for every block pointer `bp` whose header word `w` is readable and
below `2^31`, and every `size > 0` with `size + 2W` at most the stored block
size, `reallocate(bp, size)` returns `bp` itself and leaves the entire
allocator state (memory, free list, break, flags) unchanged. -/
theorem c8_realloc_shrink_identity (st : St) (fuel bp size w : Nat)
    (hr : wread st (hdrp bp) = some w) (hw : w < I32)
    (h0 : 0 < size) (hfit : size + 2 * WSIZE ≤ sizeAsU64 w) :
    mm_realloc st fuel bp size = (bp, st) := by
  have hw' : w < 2147483648 := hw
  have hb : sizeBits w = w % 4294967296 / 8 * 8 := rfl
  have hsb : sizeBits w < I32 := by
    rw [hb]
    show _ < 2147483648
    omega
  have hsu : sizeAsU64 w = sizeBits w := by simp [sizeAsU64, hsb]
  have hfit' : size + 16 ≤ w % 4294967296 / 8 * 8 := by
    rw [hsu, hb] at hfit
    exact hfit
  have hne : ¬ I32 ≤ low32 size := by
    show ¬ 2147483648 ≤ size % 4294967296
    omega
  have hnz : ¬ low32 size = 0 := by
    show ¬ size % 4294967296 = 0
    omega
  have hle : (size + 2 * WSIZE) % M64 ≤ sizeAsU64 w := by
    rw [hsu, hb]
    show (size + 2 * 8) % 18446744073709551616 ≤ _
    omega
  unfold mm_realloc
  rw [if_neg hne, if_neg hnz, if_pos h0, getSize_of_wread hr]
  show (if (size + 2 * WSIZE) % M64 ≤ sizeAsU64 w then ((bp : Nat), st) else _) = (bp, st)
  rw [if_pos hle]

/-- Witness for C8: in `c2Base` the block at 112 has header word 49
(size 48, allocated), and `reallocate(112, 24)` (so `24 + 16 = 40 ≤ 48`)
returns 112 with the state unchanged. -/
theorem c8_realloc_shrink_identity_witness :
    wread c2Base (hdrp 112) = some 49 ∧ (49 : Nat) < I32 ∧ (0 : Nat) < 24 ∧
    24 + 2 * WSIZE ≤ sizeAsU64 49 ∧ mm_realloc c2Base 50 112 24 = (112, c2Base) :=
  ⟨by decide, by decide, by decide, by decide,
   c8_realloc_shrink_identity c2Base 50 112 24 49 (by decide) (by decide)
     (by decide) (by decide)⟩

/-! ### Claim C4 -/

lemma wread_PUTw_self_mod {st : St} {a : Nat} (v : Nat) (h : inArena st a) :
    wread (PUTw st a v) a = some (v % M64) := by
  obtain ⟨ha1, ha2⟩ := h
  simp [wread, inArena, PUTw, ha1, ha2]

/-- A small state used to exercise the header encoding in isolation. -/
def c4St : St :=
  { memw := fun _ => 0, brk := 2048, cap := 2048, heap_listp := 0,
    free_listp := 0, reqs := [], ok := true }

/-- C4 counterexample: writing the header `PACK(2^35 + 48, 1)` with the
source's `PUT` (an `int`-sized store) and reading it back with `GET_SIZE`
yields 48 — bit 35 of the size is lost, so the size field does not occupy
bits 3..63 of a machine word.  `GET` is also an `int` access, so even a cell
whose full 64-bit content has bit 35 set reads back as size 48. -/
theorem c4_header_word_counterexample :
    sizeAtD (PUT c4St 1024 (PACK 34359738416 1)) 1032 = 48 ∧
    ¬ ((48 : Nat) = 34359738416) ∧
    (getAlloc (PUT c4St 1024 (PACK 34359738416 1)) 1024).1 = 1 ∧
    sizeAsU64 34359738416 = 48 :=
  ⟨by decide, by decide, by decide, by decide⟩

/-- C4 amended: the header (and footer) tag is stored through a 32-bit
`int` access — `PUT` replaces only the low 32 bits of the 8-byte cell,
keeping the high half — and within those 32 bits a size that is a multiple
of 8 and below `2^31` round-trips exactly, with the allocated flag in bit 0
and bits 1 and 2 zero.  Sizes are thus representable up to bit 31, not 63. -/
theorem c4_header_32bit_encoding (st : St) (p size alloc : Nat)
    (hp : inArena st p) (hs : size < I32) (h8 : size % 8 = 0)
    (ha : alloc = 0 ∨ alloc = 1) :
    ∃ w, wread (PUT st p (PACK size alloc)) p = some w ∧
      w = (st.memw p / M32 * M32 + low32 (PACK size alloc)) % M64 ∧
      low32 w = size + alloc ∧ sizeAsU64 w = size ∧ allocBit w = alloc ∧
      (size + alloc) / 2 % 4 = 0 := by
  have ha2 : alloc ≤ 1 := by rcases ha with h | h <;> omega
  have hs2 : size < 2147483648 := hs
  have hpk : PACK size alloc = size + alloc := by
    rcases ha with h | h
    · subst h
      rw [PACK_zero]
      omega
    · subst h
      exact PACK_one_even size (by omega)
  have hGw : GETw st p = (st.memw p, st) := by simp [GETw, hp]
  have hput : PUT st p (PACK size alloc) =
      PUTw st p (st.memw p / M32 * M32 + low32 (PACK size alloc)) := by
    simp [PUT, hGw]
  refine ⟨(st.memw p / M32 * M32 + low32 (PACK size alloc)) % M64, ?_, rfl, ?_, ?_, ?_, ?_⟩
  · rw [hput]
    exact wread_PUTw_self_mod _ hp
  · rw [hpk]
    show (st.memw p / 4294967296 * 4294967296 + (size + alloc) % 4294967296) %
        18446744073709551616 % 4294967296 = size + alloc
    omega
  · have hl : low32 ((st.memw p / M32 * M32 + low32 (PACK size alloc)) % M64)
        = size + alloc := by
      rw [hpk]
      show (st.memw p / 4294967296 * 4294967296 + (size + alloc) % 4294967296) %
          18446744073709551616 % 4294967296 = size + alloc
      omega
    have hb : sizeBits ((st.memw p / M32 * M32 + low32 (PACK size alloc)) % M64)
        = size := by
      have hd : sizeBits ((st.memw p / M32 * M32 + low32 (PACK size alloc)) % M64)
          = low32 ((st.memw p / M32 * M32 + low32 (PACK size alloc)) % M64) / 8 * 8 := rfl
      rw [hd, hl]
      omega
    unfold sizeAsU64
    rw [hb, if_pos hs]
  · have hl : low32 ((st.memw p / M32 * M32 + low32 (PACK size alloc)) % M64)
        = size + alloc := by
      rw [hpk]
      show (st.memw p / 4294967296 * 4294967296 + (size + alloc) % 4294967296) %
          18446744073709551616 % 4294967296 = size + alloc
      omega
    have hd : allocBit ((st.memw p / M32 * M32 + low32 (PACK size alloc)) % M64)
        = low32 ((st.memw p / M32 * M32 + low32 (PACK size alloc)) % M64) % 2 := rfl
    rw [hd, hl]
    omega
  · omega

/-- Witness for C4 at size 48, allocated, in cell 1024 of `c4St`. -/
theorem c4_header_32bit_encoding_witness :
    inArena c4St 1024 ∧ (48 : Nat) < I32 ∧ (48 : Nat) % 8 = 0 ∧
    (∃ w, wread (PUT c4St 1024 (PACK 48 1)) 1024 = some w ∧
      w = (c4St.memw 1024 / M32 * M32 + low32 (PACK 48 1)) % M64 ∧
      low32 w = 48 + 1 ∧ sizeAsU64 w = 48 ∧ allocBit w = 1 ∧
      (48 + 1) / 2 % 4 = 0) :=
  ⟨by decide, by decide, by decide,
   c4_header_32bit_encoding c4St 1024 48 1 (by decide) (by decide) (by decide)
     (Or.inr rfl)⟩

/-! ### Claim C1, counterexample part -/

/-- C1 counterexample: from a fresh heap, `allocate(32)` twice; the second
call completes normally and returns address 168, which is 8-aligned but not
16-aligned — the claimed `addr mod 2W = 0` (mod 16 with `W = 8`) fails.
(The `ALIGN` macro masks with `~0x7`, so requests are rounded to 8, not 16.) -/
theorem c1_malloc_not_16_aligned :
    c1Run.1 = 168 ∧ c1Run.2.ok = true ∧ ¬ (c1Run.1 % 16 = 0) :=
  ⟨by decide, by decide, by decide⟩

/-! ### Claim C2 -/

/-- C2: in state `c2Base` (provider exhausted), growing block 112 from 48 to
`newsize = 116` bytes cannot use the next block and `allocate(116)` returns
`NULL` normally (`ok` still set); but `reallocate(112, 100)` does not return
`NULL`: it passes the `NULL` into `place`, whose header read at address
`NULL - 8` leaves the defined-behaviour fragment of the model (`ok = false`),
i.e. the source dereferences a null block pointer instead of returning null. -/
theorem c2_realloc_null_alloc_undefined :
    c2Base.ok = true ∧ (mm_malloc c2Base 50 116).1 = 0 ∧
    (mm_malloc c2Base 50 116).2.ok = true ∧ c2Run.2.ok = false :=
  ⟨by decide, by decide, by decide, by decide⟩

/-! ### Claim C9 -/

/-- C9 counterexample: from the post-`init` state the free list holds 48
bytes; `allocate(100)` must extend the arena (the initial free block is only
48 bytes), so after freeing the returned block the free list holds
`48 + 4096 = 4144` bytes — not the claimed "total free bytes equal the total
before the pair of operations". -/
theorem c9_roundtrip_counterexample :
    freeListBytes c9Init 50 = some 48 ∧ (c9Round 100).ok = true ∧
    freeListBytes (c9Round 100) 50 = some 4144 ∧ ¬ ((4144 : Nat) = 48) :=
  ⟨by decide, by decide, by decide, by decide⟩

lemma c9rt1 : (c9Round 1).ok = true ∧
    freeListBytes (c9Round 1) 50 = freeListBytes c9Init 50 := by
  have h1 : freeListBytes (c9Round 1) 50 = some 48 := by decide
  have h2 : freeListBytes c9Init 50 = some 48 := by decide
  exact ⟨by decide, h1.trans h2.symm⟩

lemma c9_malloc_eq (n : Nat) (h0 : 0 < n) (h24 : n ≤ 24) :
    mm_malloc c9Init 50 n = mm_malloc c9Init 50 1 := by
  unfold mm_malloc
  rw [if_neg (by omega : ¬ n = 0), if_neg (by decide : ¬ (1 : Nat) = 0)]
  have h1 : ALIGN n = (n + 31) / 8 * 8 := by
    show (n + (ALIGNMENT - 1) + DSIZE) % M64 / 8 * 8 = _
    have h2 : (n + (ALIGNMENT - 1) + DSIZE) % M64 = n + 31 := by
      show (n + (2 * 8 - 1) + 16) % 18446744073709551616 = n + 31
      omega
    rw [h2]
  have h3 : max (ALIGN n) MINIMUM = 48 := by
    rw [h1]
    show max ((n + 31) / 8 * 8) (6 * 8) = 48
    omega
  have h4 : max (ALIGN 1) MINIMUM = 48 := by decide
  rw [h3, h4]

/-- C9 amended: when `allocate(n)` is served from the existing free list
(from the post-`init` state this is exactly `n ≤ 24`, for which the adjusted
size is the 48-byte minimum and fits the initial free block), the
allocate/free round trip completes normally and restores the total number of
free-list bytes; larger requests extend the arena and add the extension to
the free total (see the counterexample). -/
theorem c9_roundtrip_free_bytes : ∀ n : Nat, n ≤ 24 → 0 < n →
    (c9Round n).ok = true ∧
    freeListBytes (c9Round n) 50 = freeListBytes c9Init 50 := by
  intro n h1 h2
  unfold c9Round
  rw [c9_malloc_eq n h2 h1]
  exact c9rt1

/-- Witness for C9 at `n = 1`. -/
theorem c9_roundtrip_free_bytes_witness :
    (1 : Nat) ≤ 24 ∧ (0 : Nat) < 1 ∧ (c9Round 1).ok = true ∧
    freeListBytes (c9Round 1) 50 = freeListBytes c9Init 50 :=
  ⟨by decide, by decide, (c9_roundtrip_free_bytes 1 (by decide) (by decide)).1,
   (c9_roundtrip_free_bytes 1 (by decide) (by decide)).2⟩

/-! ### C7: `findFit` walks the free list first-fit -/

lemma sizeAtD_of_wread {st : St} {bp w : Nat} (h : wread st (hdrp bp) = some w) :
    sizeAtD st bp = sizeAsU64 w := by
  simp [sizeAtD, h]

lemma freeChain_zero (st : St) (bp : Nat) : freeChain st 0 bp = none := rfl

lemma freeChain_succ (st : St) (f bp : Nat) :
    freeChain st (f + 1) bp = freeChainStep st (freeChain st f) bp := rfl

lemma findFitLoop_succ (st : St) (asize f bp : Nat) :
    findFitLoop asize (f + 1) st bp = findFitStep asize (findFitLoop asize f) st bp := rfl

lemma freeChainStep_none {st : St} (rec : Nat → Option (List Nat)) {bp : Nat}
    (hw : wread st (hdrp bp) = none) : freeChainStep st rec bp = none := by
  unfold freeChainStep
  rw [hw]

lemma freeChainStep_alloc {st : St} (rec : Nat → Option (List Nat)) {bp w : Nat}
    (hw : wread st (hdrp bp) = some w) (ha : ¬ allocBit w = 0) :
    freeChainStep st rec bp = some [] := by
  unfold freeChainStep
  rw [hw]
  show (if allocBit w = 0 then _ else _) = _
  rw [if_neg ha]

lemma freeChainStep_free_none {st : St} (rec : Nat → Option (List Nat)) {bp w : Nat}
    (hw : wread st (hdrp bp) = some w) (ha : allocBit w = 0)
    (hn : wread st (addAddr bp DSIZE) = none) :
    freeChainStep st rec bp = none := by
  unfold freeChainStep
  rw [hw]
  show (if allocBit w = 0 then _ else _) = _
  rw [if_pos ha, hn]

lemma freeChainStep_free {st : St} (rec : Nat → Option (List Nat)) {bp w nxt : Nat}
    (hw : wread st (hdrp bp) = some w) (ha : allocBit w = 0)
    (hn : wread st (addAddr bp DSIZE) = some nxt) :
    freeChainStep st rec bp = (rec nxt).map (fun l => bp :: l) := by
  unfold freeChainStep
  rw [hw]
  show (if allocBit w = 0 then _ else _) = _
  rw [if_pos ha, hn]

lemma findFitStep_alloc (asize : Nat) (rec : St → Nat → Nat × St) {st : St} {bp w : Nat}
    (hw : wread st (hdrp bp) = some w) (ha : ¬ allocBit w = 0) :
    findFitStep asize rec st bp = (0, st) := by
  unfold findFitStep
  rw [getAlloc_of_wread hw]
  show (if allocBit w = 0 then _ else _) = _
  rw [if_neg ha]

lemma findFitStep_hit (asize : Nat) (rec : St → Nat → Nat × St) {st : St} {bp w : Nat}
    (hw : wread st (hdrp bp) = some w) (ha : allocBit w = 0)
    (hc : asize ≤ sizeAsU64 w) :
    findFitStep asize rec st bp = (bp, st) := by
  unfold findFitStep
  rw [getAlloc_of_wread hw]
  show (if allocBit w = 0 then _ else _) = _
  rw [if_pos ha, getSize_of_wread hw]
  show (if asize ≤ sizeAsU64 w then _ else _) = _
  rw [if_pos hc]

lemma findFitStep_miss (asize : Nat) (rec : St → Nat → Nat × St) {st : St} {bp w nxt : Nat}
    (hw : wread st (hdrp bp) = some w) (ha : allocBit w = 0)
    (hc : ¬ asize ≤ sizeAsU64 w) (hn : wread st (addAddr bp DSIZE) = some nxt) :
    findFitStep asize rec st bp = rec st nxt := by
  unfold findFitStep
  rw [getAlloc_of_wread hw]
  show (if allocBit w = 0 then _ else _) = _
  rw [if_pos ha, getSize_of_wread hw]
  show (if asize ≤ sizeAsU64 w then _ else _) = _
  rw [if_neg hc, getPtr_of_wread hn]

lemma findFitLoop_spec (st : St) (asize : Nat) :
    ∀ fuel bp l, freeChain st fuel bp = some l →
    findFitLoop asize fuel st bp =
      ((l.find? (fun x => asize ≤ sizeAtD st x)).getD 0, st) := by
  intro fuel
  induction fuel with
  | zero =>
    intro bp l h
    rw [freeChain_zero] at h
    exact Option.noConfusion h
  | succ f ih =>
    intro bp l h
    rw [freeChain_succ] at h
    rw [findFitLoop_succ]
    cases hw : wread st (hdrp bp) with
    | none =>
      rw [freeChainStep_none _ hw] at h
      exact Option.noConfusion h
    | some w =>
      by_cases ha : allocBit w = 0
      · cases hn : wread st (addAddr bp DSIZE) with
        | none =>
          rw [freeChainStep_free_none _ hw ha hn] at h
          exact Option.noConfusion h
        | some nxt =>
          rw [freeChainStep_free _ hw ha hn] at h
          cases hl2 : freeChain st f nxt with
          | none =>
            rw [hl2] at h
            exact Option.noConfusion h
          | some l2 =>
            rw [hl2] at h
            simp only [Option.map_some'] at h
            injection h with h
            subst h
            by_cases hc : asize ≤ sizeAsU64 w
            · rw [findFitStep_hit asize _ hw ha hc]
              rw [List.find?_cons_of_pos _ (by simp [sizeAtD_of_wread hw, hc])]
              rfl
            · rw [findFitStep_miss asize _ hw ha hc hn]
              rw [List.find?_cons_of_neg _ (by simp [sizeAtD_of_wread hw, hc])]
              exact ih nxt l2 hl2
      · rw [freeChainStep_alloc _ hw ha] at h
        injection h with h
        subst h
        rw [findFitStep_alloc asize _ hw ha]
        rfl

/-- C7: `findFit` walks the free list from `free_listp` following `next_free`
links; the walk stops at the first block whose allocated bit is set (the
sentinel boundary), which is exactly what the observer `freeChain` records as
the list `l` of free blocks visited. `findFit` returns the first block of `l`
whose size is at least `asize`, or the null pointer `0` when no block of `l`
fits, and it does not change the state. -/
theorem c7_find_fit_first_fit (st : St) (fuel asize : Nat) (l : List Nat)
    (h : freeChain st fuel st.free_listp = some l) :
    findFit st fuel asize =
      ((l.find? (fun x => asize ≤ sizeAtD st x)).getD 0, st) :=
  findFitLoop_spec st asize fuel st.free_listp l h

/-- Witness for C7 on the post-`init` heap (free list `[112]`, block size 48):
an `asize` of 40 is served by first fit at `112`, an `asize` of 100 finds no
fit and yields the null pointer. -/
theorem c7_find_fit_first_fit_witness :
    freeChain c9Init 50 c9Init.free_listp = some [112] ∧
    findFit c9Init 50 40 = (112, c9Init) ∧
    findFit c9Init 50 100 = (0, c9Init) := by
  have e1 : freeChain c9Init 50 c9Init.free_listp = some [112] := by decide
  refine ⟨e1, ?_, ?_⟩
  · rw [c7_find_fit_first_fit c9Init 50 40 [112] e1]
    have e2 : ([112].find? (fun x => 40 ≤ sizeAtD c9Init x)) = some 112 := by decide
    rw [e2]
    rfl
  · rw [c7_find_fit_first_fit c9Init 50 100 [112] e1]
    have e3 : ([112].find? (fun x => 100 ≤ sizeAtD c9Init x)) = none := by decide
    rw [e3]
    rfl

/-! ### C1: alignment of `mm_malloc` results -/

lemma getSize_fst (st : St) (p : Nat) : (getSize st p).1 = sizeAsU64 (GETw st p).1 := by
  unfold getSize
  rcases h : GETw st p with ⟨w, st1⟩
  rfl

lemma prevBlkp_fst_mod8 (st : St) {bp : Nat} (h : bp % 8 = 0) :
    (prevBlkp st bp).1 % 8 = 0 := by
  unfold prevBlkp
  rcases hg : getSize st (subAddr (hdrp bp) WSIZE) with ⟨s, st1⟩
  show subAddr bp s % 8 = 0
  have hs : s = sizeAsU64 (GETw st (subAddr (hdrp bp) WSIZE)).1 := by
    have h2 := getSize_fst st (subAddr (hdrp bp) WSIZE)
    rw [hg] at h2
    exact h2
  rw [hs]
  exact subAddr_sizeAsU64_mod8 _ h

lemma coalesceMerge_fst_mod8 (st0 : St) {bp0 : Nat} (h : bp0 % 8 = 0) :
    (coalesceMerge st0 bp0).1 % 8 = 0 := by
  unfold coalesceMerge
  rcases h1 : prevBlkp st0 bp0 with ⟨pb, sa1⟩
  dsimp only []
  rcases h2 : ftrp sa1 pb with ⟨fpb, sa2⟩
  dsimp only []
  rcases h3 : getAlloc sa2 fpb with ⟨pa, sa3⟩
  dsimp only []
  rcases h4 : nextBlkp sa3 bp0 with ⟨nb0, sa4⟩
  dsimp only []
  rcases h5 : getAlloc sa4 (hdrp nb0) with ⟨na, sa5⟩
  dsimp only []
  rcases h6 : getSize sa5 (hdrp bp0) with ⟨size0, sa6⟩
  dsimp only []
  split
  · -- case 1: prev allocated, next free — returns bp0
    rcases hn1 : nextBlkp sa6 bp0 with ⟨nb1, sb1⟩
    try dsimp only []
    rcases hn2 : getSize sb1 (hdrp nb1) with ⟨ns, sb2⟩
    try dsimp only []
    rcases hn3 : nextBlkp sb2 bp0 with ⟨nb2, sb3⟩
    try dsimp only []
    try split
    exact h
  · split
    · -- case 2: prev free, next allocated — returns PREV_BLKP
      rcases hp1 : prevBlkp sa6 bp0 with ⟨pb1, sc1⟩
      try dsimp only []
      rcases hp2 : getSize sc1 (hdrp pb1) with ⟨ps, sc2⟩
      try dsimp only []
      rcases hp3 : prevBlkp sc2 bp0 with ⟨pb2, sc3⟩
      try dsimp only []
      have hpb2 : pb2 % 8 = 0 := by
        have hx := @prevBlkp_fst_mod8 sc2 bp0 h
        rw [hp3] at hx
        exact hx
      try split
      exact hpb2
    · split
      · -- case 3: both free — returns PREV_BLKP
        rcases hq1 : prevBlkp sa6 bp0 with ⟨pb1, sd1⟩
        try dsimp only []
        rcases hq2 : getSize sd1 (hdrp pb1) with ⟨ps, sd2⟩
        try dsimp only []
        rcases hq3 : nextBlkp sd2 bp0 with ⟨nb1, sd3⟩
        try dsimp only []
        rcases hq4 : getSize sd3 (hdrp nb1) with ⟨ns, sd4⟩
        try dsimp only []
        rcases hq5 : prevBlkp sd4 bp0 with ⟨pb2, sd5⟩
        try dsimp only []
        rcases hq6 : nextBlkp (delete sd5 pb2) bp0 with ⟨nb2, sd7⟩
        try dsimp only []
        rcases hq7 : prevBlkp (delete sd7 nb2) bp0 with ⟨pb3, sd9⟩
        try dsimp only []
        have hpb3 : pb3 % 8 = 0 := by
          have hx := @prevBlkp_fst_mod8 (delete sd7 nb2) bp0 h
          rw [hq7] at hx
          exact hx
        try split
        exact hpb3
      · -- case 4: both allocated — returns bp0
        exact h

lemma coalesce_fst (st : St) (bp : Nat) : (coalesce st bp).1 = (coalesceMerge st bp).1 := by
  unfold coalesce
  rcases h : coalesceMerge st bp with ⟨a, b⟩
  rfl

lemma extendHeap_fst_mod8 (st : St) (words : Nat) (hb : st.brk % 8 = 0) :
    (extendHeap st words).1 = 0 ∨ (extendHeap st words).1 % 8 = 0 := by
  unfold extendHeap
  dsimp only []
  split
  · left
    rfl
  · rename_i bp st1 heq
    have hbp : bp % 8 = 0 := by
      unfold mem_sbrk at heq
      repeat' split at heq
      all_goals first
        | (injection heq with h1 h2
           injection h1 with h1
           exact h1 ▸ hb)
        | exact Option.noConfusion (congrArg Prod.fst heq)
    right
    rw [coalesce_fst]
    exact coalesceMerge_fst_mod8 _ hbp

lemma malloc_extend_aligned {st : St} {words bp2 : Nat} {st2 : St}
    (hb : st.brk % 8 = 0) (he : extendHeap st words = (bp2, st2)) (h0 : bp2 ≠ 0) :
    bp2 % 8 = 0 := by
  rcases extendHeap_fst_mod8 st words hb with hz | hmod
  · rw [he] at hz
    exact absurd hz h0
  · rw [he] at hmod
    exact hmod

/-- C1 amended: `ALIGN` masks with `~0x7`, so `mm_malloc` aligns to a single
word (8 bytes), not the claimed double word (16 bytes).  From any state whose
free-list walk succeeds and visits only 8-aligned blocks and whose break is
8-aligned, a non-null pointer returned by `mm_malloc` is 8-aligned: a first
fit is one of the visited blocks, and an extension starts at the old break
(see `c1_malloc_not_16_aligned` for the failure of 16-alignment). -/
theorem c1_malloc_8_aligned (st : St) (fuel size : Nat) (l : List Nat) (p : Nat) (st' : St)
    (hl : freeChain st fuel st.free_listp = some l)
    (ha : ∀ x ∈ l, x % 8 = 0)
    (hb : st.brk % 8 = 0)
    (hm : mm_malloc st fuel size = (p, st'))
    (hp : p ≠ 0) :
    p % 8 = 0 := by
  have hff : findFit st fuel (max (ALIGN size) MINIMUM) =
      ((l.find? (fun x => max (ALIGN size) MINIMUM ≤ sizeAtD st x)).getD 0, st) :=
    findFitLoop_spec st _ fuel st.free_listp l hl
  unfold mm_malloc at hm
  by_cases hz : size = 0
  · rw [if_pos hz] at hm
    exact absurd (congrArg Prod.fst hm).symm hp
  · rw [if_neg hz] at hm
    dsimp only [] at hm
    rw [hff] at hm
    dsimp only [] at hm
    cases hfind : l.find? (fun x => max (ALIGN size) MINIMUM ≤ sizeAtD st x) with
    | some x =>
      rw [hfind] at hm
      simp only [Option.getD_some] at hm
      by_cases hx0 : x = 0
      · rw [if_neg (fun hne => hne hx0)] at hm
        rcases he : extendHeap st (max (max (ALIGN size) MINIMUM) CHUNKSIZE / WSIZE)
          with ⟨bp2, st2⟩
        rw [he] at hm
        dsimp only [] at hm
        by_cases h0 : bp2 = 0
        · rw [if_pos h0] at hm
          exact absurd (congrArg Prod.fst hm).symm hp
        · rw [if_neg h0] at hm
          have hq := malloc_extend_aligned hb he h0
          have hpe : bp2 = p := congrArg Prod.fst hm
          exact hpe ▸ hq
      · rw [if_pos hx0] at hm
        have hx : x % 8 = 0 := ha x (List.mem_of_find?_eq_some hfind)
        have hpe : x = p := congrArg Prod.fst hm
        exact hpe ▸ hx
    | none =>
      rw [hfind] at hm
      simp only [Option.getD_none] at hm
      rw [if_neg (fun hne => hne rfl)] at hm
      rcases he : extendHeap st (max (max (ALIGN size) MINIMUM) CHUNKSIZE / WSIZE)
        with ⟨bp2, st2⟩
      rw [he] at hm
      dsimp only [] at hm
      by_cases h0 : bp2 = 0
      · rw [if_pos h0] at hm
        exact absurd (congrArg Prod.fst hm).symm hp
      · rw [if_neg h0] at hm
        have hq := malloc_extend_aligned hb he h0
        have hpe : bp2 = p := congrArg Prod.fst hm
        exact hpe ▸ hq

/-- Witness for C1 amended on the post-`init` heap: `allocate(1)` returns
`112`, which is 8-aligned. -/
theorem c1_malloc_8_aligned_witness :
    freeChain c9Init 50 c9Init.free_listp = some [112] ∧ (112 : Nat) % 8 = 0 := by
  have e1 : freeChain c9Init 50 c9Init.free_listp = some [112] := by decide
  refine ⟨e1, ?_⟩
  have hm : mm_malloc c9Init 50 1 = (112, (mm_malloc c9Init 50 1).2) := by
    have hfst : (mm_malloc c9Init 50 1).1 = 112 := by decide
    rw [← hfst]
  exact c1_malloc_8_aligned c9Init 50 1 [112] 112 (mm_malloc c9Init 50 1).2 e1
    (by decide) (by decide) hm (by decide)

/-! ### C3: what `mm_init` obtains from the provider -/

lemma mem_sbrk_success {st : St} {incr : Nat} (h : st.brk + incr ≤ st.cap) :
    mem_sbrk st incr =
      (some st.brk, { st with brk := st.brk + incr, reqs := st.reqs ++ [incr] }) := by
  unfold mem_sbrk
  rw [if_pos h]

lemma mem_sbrk_fail {st : St} {incr : Nat} (h : ¬ st.brk + incr ≤ st.cap) :
    mem_sbrk st incr = (none, { st with reqs := st.reqs ++ [incr] }) := by
  unfold mem_sbrk
  rw [if_neg h]

lemma GETw_brk (st : St) (a : Nat) : (GETw st a).2.brk = st.brk := by
  unfold GETw
  split <;> rfl

lemma GETw_cap (st : St) (a : Nat) : (GETw st a).2.cap = st.cap := by
  unfold GETw
  split <;> rfl

lemma PUTw_cap (st : St) (a v : Nat) : (PUTw st a v).cap = st.cap := by
  unfold PUTw
  split <;> rfl

lemma PUT_brk (st : St) (a v : Nat) : (PUT st a v).brk = st.brk := by
  unfold PUT
  rcases h : GETw st a with ⟨w, st1⟩
  show (PUTw st1 a _).brk = st.brk
  rw [PUTw_brk]
  have h2 := GETw_brk st a
  rw [h] at h2
  exact h2

lemma PUT_cap (st : St) (a v : Nat) : (PUT st a v).cap = st.cap := by
  unfold PUT
  rcases h : GETw st a with ⟨w, st1⟩
  show (PUTw st1 a _).cap = st.cap
  rw [PUTw_cap]
  have h2 := GETw_cap st a
  rw [h] at h2
  exact h2

lemma c3_success_region :
    ∀ cap < 512, 160 ≤ cap →
    (mm_init (st0 cap)).1 = 0 ∧ (mm_init (st0 cap)).2.reqs = [96, 48] ∧
    (mm_init (st0 cap)).2.free_listp = 112 ∧ (mm_init (st0 cap)).2.ok = true := by
  decide

/-- C3 amended: `mm_init` requests `2 * MINIMUM = 96` bytes (not the claimed
`4 * 6W = 192`) and then, because `CHUNKSIZE`'s macro body `1<<12` parses as
`1 << (12 / 8)` in `CHUNKSIZE / WSIZE`, extends the arena by only 48 bytes
(not 4096).  Characterization over the provider capacity: init fails exactly
when a provider call fails (first call needs 112 bytes of capacity, second
160), the request log records 96 then 48, and on success the free-list head
is 112 (the extension block), shown here for capacities below 512. -/
theorem c3_init_characterization (cap : Nat) :
    (cap < 160 → (mm_init (st0 cap)).1 = -1) ∧
    (cap < 112 → (mm_init (st0 cap)).2.reqs = [96]) ∧
    (112 ≤ cap → cap < 160 → (mm_init (st0 cap)).2.reqs = [96, 48]) ∧
    (160 ≤ cap → cap < 512 →
      (mm_init (st0 cap)).1 = 0 ∧ (mm_init (st0 cap)).2.reqs = [96, 48] ∧
      (mm_init (st0 cap)).2.free_listp = 112 ∧ (mm_init (st0 cap)).2.ok = true) := by
  refine ⟨?_, ?_, ?_, fun h2 h3 => c3_success_region cap h3 h2⟩
  · intro hc
    by_cases h1 : 112 ≤ cap
    · unfold mm_init
      rw [mem_sbrk_success (show (st0 cap).brk + 2 * MINIMUM ≤ (st0 cap).cap from by
        show 112 ≤ cap
        omega)]
      dsimp only []
      unfold extendHeap
      dsimp only []
      rw [mem_sbrk_fail ?hf]
      case hf =>
        simp only [PUT_brk, PUT_cap]
        show ¬ (112 + _ ≤ cap)
        simp [WSIZE, MINIMUM]
        omega
      dsimp only []
      rfl
    · unfold mm_init
      rw [mem_sbrk_fail (show ¬ (st0 cap).brk + 2 * MINIMUM ≤ (st0 cap).cap from by
        show ¬ 112 ≤ cap
        omega)]
  · intro hc
    unfold mm_init
    rw [mem_sbrk_fail (show ¬ (st0 cap).brk + 2 * MINIMUM ≤ (st0 cap).cap from by
      show ¬ 112 ≤ cap
      omega)]
    rfl
  · intro h1 hc
    unfold mm_init
    rw [mem_sbrk_success (show (st0 cap).brk + 2 * MINIMUM ≤ (st0 cap).cap from by
      show 112 ≤ cap
      omega)]
    dsimp only []
    unfold extendHeap
    dsimp only []
    rw [mem_sbrk_fail ?hf2]
    case hf2 =>
      simp only [PUT_brk, PUT_cap]
      show ¬ (112 + _ ≤ cap)
      simp [WSIZE, MINIMUM]
      omega
    dsimp only []
    rfl

/-- Witness for C3 at capacity 200: both provider calls fit and init succeeds. -/
theorem c3_init_characterization_witness :
    (160 : Nat) ≤ 200 ∧ (200 : Nat) < 512 ∧ (mm_init (st0 200)).1 = 0 :=
  ⟨by decide, by decide,
    ((c3_init_characterization 200).2.2.2 (by decide) (by decide)).1⟩

/-- C3 counterexample: with ample capacity (4096 bytes) init succeeds, but the
provider request log is `[96, 48]`: the initial layout request is 96 bytes,
which is not the claimed `4 * 6W = 192`, and the extension is 48 bytes, not
the claimed 4096-byte chunk. -/
theorem c3_init_requests_counterexample :
    (mm_init (st0 4096)).2.ok = true ∧ (mm_init (st0 4096)).1 = 0 ∧
    (mm_init (st0 4096)).2.reqs = [96, 48] ∧
    ¬((96 : Nat) = 4 * (6 * WSIZE)) ∧ ¬((48 : Nat) = 4096) :=
  ⟨by decide, by decide, by decide, by decide, by decide⟩

/-! ### C5: coalesce with both neighbors free -/

lemma prevBlkp_of_wread {st : St} {bp w : Nat}
    (h : wread st (subAddr (hdrp bp) WSIZE) = some w) :
    prevBlkp st bp = (subAddr bp (sizeAsU64 w), st) := by
  unfold prevBlkp
  rw [getSize_of_wread h]

lemma nextBlkp_of_wread {st : St} {bp w : Nat} (h : wread st (hdrp bp) = some w) :
    nextBlkp st bp = (addAddr bp (sizeAsU64 w), st) := by
  unfold nextBlkp
  rw [getSize_of_wread h]

lemma ftrp_of_wread {st : St} {bp w : Nat} (h : wread st (hdrp bp) = some w) :
    ftrp st bp = (subAddr (addAddr bp (sizeAsU64 w)) DSIZE, st) := by
  unfold ftrp
  rw [getSize_of_wread h]

lemma wread_setfl (st : St) (v a : Nat) :
    wread { st with free_listp := v } a = wread st a := rfl

lemma inArena_of (st : St) (a : Nat) (h1 : 16 ≤ a) (h2 : a + 8 ≤ st.brk) :
    inArena st a := ⟨h1, h2⟩


lemma inArena_setfl (st : St) (v a : Nat) :
    inArena { st with free_listp := v } a ↔ inArena st a := Iff.rfl

section C5
variable {st0 : St} {bp sp sb sn T : Nat}

/-- C5: coalesce, case 4 (both arena neighbors free).  For a just-freed
block `bp` of size `sb` whose previous neighbor (size `sp`) and next
neighbor (size `sn`) are both free, with the free list linking
`next -> prev -> T` (the next neighbor at the head), `coalesce` removes both
neighbors from the free list, writes a single merged header and footer of
size `sp + sb + sn` at the previous neighbor's position, makes the merged
block the new head of the free list (LIFO insert: `prev_free = 0`,
`next_free = T`, `free_listp` = merged block), returns the previous
neighbor's payload address `bp - sp`, and completes without a fault.  The
last conjunct is the structural fact that every path of `coalesce` performs
exactly one `add` of the returned block. -/
theorem c5_coalesce_case4
    (hsp8 : sp % 8 = 0) (hsb8 : sb % 8 = 0) (hsn8 : sn % 8 = 0)
    (hsp : 48 ≤ sp) (hsb : 48 ≤ sb) (hsn : 48 ≤ sn)
    (hsum : sp + sb + sn < I32)
    (hbp : sp + 24 ≤ bp)
    (hbrk : bp + sb + sn - 8 ≤ st0.brk) (hbrkM : st0.brk ≤ M64)
    (hok : st0.ok = true)
    (h1 : wread st0 (bp - 8) = some sb)
    (h2 : wread st0 (bp - 16) = some sp)
    (h3 : wread st0 (bp - sp - 8) = some sp)
    (h4 : wread st0 (bp + sb - 8) = some sn)
    (h5 : wread st0 (bp + sb + sn - 16) = some sn)
    (h6 : wread st0 (bp - sp) = some (bp + sb))
    (h7 : wread st0 (bp - sp + 16) = some T)
    (h8 : wread st0 (bp + sb) = some 0)
    (hT1 : 16 ≤ T) (hT2 : T + 8 ≤ st0.brk)
    (hTd : T ≠ bp - 8 ∧ T ≠ bp - 16 ∧ T ≠ bp - sp - 8 ∧ T ≠ bp - sp ∧
           T ≠ bp - sp + 16 ∧ T ≠ bp + sb ∧ T ≠ bp + sb + 16 ∧
           T ≠ bp + sb + sn - 16) :
    (coalesce st0 bp).1 = bp - sp ∧
    (coalesce st0 bp).2.free_listp = bp - sp ∧
    (coalesce st0 bp).2.ok = true ∧
    wread (coalesce st0 bp).2 (bp - sp - 8) = some (sp + sb + sn) ∧
    wread (coalesce st0 bp).2 (bp + sb + sn - 16) = some (sp + sb + sn) ∧
    wread (coalesce st0 bp).2 (bp - sp) = some 0 ∧
    wread (coalesce st0 bp).2 (bp - sp + 16) = some T ∧
    wread (coalesce st0 bp).2 T = some (bp - sp) ∧
    (∀ s b, coalesce s b =
      ((coalesceMerge s b).1, add (coalesceMerge s b).2 (coalesceMerge s b).1)) := by
  obtain ⟨hT_a, hT_b, hT_c, hT_d, hT_e, hT_f, hT_g, hT_h⟩ := hTd
  have hsumL : sp + sb + sn < 2147483648 := hsum
  have hbrkL : st0.brk ≤ 18446744073709551616 := hbrkM
  have iaA : inArena st0 (bp + sb + 16) := inArena_of st0 _ (by omega) (by omega)
  have iaB : inArena st0 T := inArena_of st0 _ (by omega) (by omega)
  have iaC : inArena st0 (bp - sp - 8) := inArena_of st0 _ (by omega) (by omega)
  have iaD : inArena st0 (bp + sb + sn - 16) := inArena_of st0 _ (by omega) (by omega)
  have iaE : inArena st0 (bp - sp + 16) := inArena_of st0 _ (by omega) (by omega)
  have iaF : inArena st0 (bp - sp) := inArena_of st0 _ (by omega) (by omega)
  have ne_a : bp - sp + 16 ≠ bp + sb + 16 := by omega
  have ne_b : bp - sp ≠ bp + sb + 16 := by omega
  have ne_c : bp - 8 ≠ bp + sb + 16 := by omega
  have ne_d : bp + sb ≠ bp + sb + 16 := by omega
  have ne_e : bp - 16 ≠ bp + sb + 16 := by omega
  have ne_f : bp - sp - 8 ≠ bp + sb + 16 := by omega
  have ne_g : bp + sb + sn - 16 ≠ bp - sp - 8 := by omega
  have ne_h : bp + sb + sn - 16 ≠ bp + sb + 16 := by omega
  have ne_i : bp - sp - 8 ≠ bp - sp := by omega
  have ne_j : bp - sp - 8 ≠ bp - sp + 16 := by omega
  have ne_k : bp - sp - 8 ≠ bp + sb + sn - 16 := by omega
  have ne_l : bp + sb + sn - 16 ≠ bp - sp := by omega
  have ne_m : bp + sb + sn - 16 ≠ bp - sp + 16 := by omega
  have ne_n : bp - sp + 16 ≠ bp - sp := by omega
  have ne_o : bp + sb ≠ 0 := by omega
  have hcomm : sp + sb + sn = sb + sp + sn := by omega
  have hadr1 : subAddr (hdrp bp) WSIZE = bp - 16 := by
    simp only [subAddr, hdrp, WSIZE]
    omega
  have hadr2 : subAddr (addAddr (bp - sp) sp) DSIZE = bp - 16 := by
    simp only [subAddr, addAddr, DSIZE]
    omega
  have hadr3 : subAddr (addAddr (bp - sp) (sb + sp + sn)) DSIZE = bp + sb + sn - 16 := by
    simp only [subAddr, addAddr, DSIZE]
    omega
  have hspM32 : sp < 4294967296 := by omega
  have hsnM32 : sn < 4294967296 := by omega
  have hsumM32 : sb + sp + sn < 4294967296 := by omega
  have hszsp : sizeAsU64 sp = sp := sizeAsU64_small (show sp < 2147483648 by omega) hsp8
  have hszsb : sizeAsU64 sb = sb := sizeAsU64_small (show sb < 2147483648 by omega) hsb8
  have hszsn : sizeAsU64 sn = sn := sizeAsU64_small (show sn < 2147483648 by omega) hsn8
  have hszsum : sizeAsU64 (sb + sp + sn) = sb + sp + sn :=
    sizeAsU64_small (show sb + sp + sn < 2147483648 by omega) (by omega)
  have habsp : allocBit sp = 0 := by
    simp only [allocBit, low32, M32]
    omega
  have habsn : allocBit sn = 0 := by
    simp only [allocBit, low32, M32]
    omega
  have hT64 : T < M64 := by
    show T < 18446744073709551616
    omega
  have hN64 : bp + sb < M64 := by
    show bp + sb < 18446744073709551616
    omega
  have hP64 : bp - sp < M64 := by
    show bp - sp < 18446744073709551616
    omega
  have h064 : (0 : Nat) < M64 := by
    show (0 : Nat) < 18446744073709551616
    omega
  have hsum64 : sb + sp + sn < M64 := by
    show sb + sp + sn < 18446744073709551616
    omega
  have e1 : wread st0 (hdrp bp) = some sb := h1
  have e2 : wread st0 (subAddr (hdrp bp) WSIZE) = some sp := by
    rw [hadr1]
    exact h2
  have e3 : wread st0 (hdrp (bp - sp)) = some sp := h3
  have e4 : wread st0 (hdrp (bp + sb)) = some sn := h4
  have eP : prevBlkp st0 bp = (bp - sp, st0) := by
    rw [prevBlkp_of_wread e2, hszsp]
    rfl
  have eF : ftrp st0 (bp - sp) = (bp - 16, st0) := by
    rw [ftrp_of_wread e3, hszsp]
    rw [hadr2]
  have eA1 : getAlloc st0 (bp - 16) = (0, st0) := by
    rw [getAlloc_of_wread h2, habsp]
  have eN : nextBlkp st0 bp = (bp + sb, st0) := by
    rw [nextBlkp_of_wread e1, hszsb]
    rfl
  have eA2 : getAlloc st0 (hdrp (bp + sb)) = (0, st0) := by
    rw [getAlloc_of_wread e4, habsn]
  have eS0 : getSize st0 (hdrp bp) = (sb, st0) := by
    rw [getSize_of_wread e1, hszsb]
  have eS1 : getSize st0 (hdrp (bp - sp)) = (sp, st0) := by
    rw [getSize_of_wread e3, hszsp]
  have eS2 : getSize st0 (hdrp (bp + sb)) = (sn, st0) := by
    rw [getSize_of_wread e4, hszsn]
  have hmod : (sb + sp + sn) % M64 = sb + sp + sn := Nat.mod_eq_of_lt hsum64
  have ebeq : ((bp - sp) == bp) = false := by
    rw [beq_eq_false_iff_ne]
    omega
  have hdel1 : delete st0 (bp - sp) = PUTw (PUTw st0 (bp + sb + 16) T) T (bp + sb) := by
    unfold delete
    simp only [getPtr_of_wread h6]
    try dsimp only []
    rw [if_pos ne_o]
    rw [show addAddr (bp - sp) DSIZE = bp - sp + 16 from rfl]
    simp only [getPtr_of_wread h7]
    try dsimp only []
    rw [show addAddr (bp + sb) DSIZE = bp + sb + 16 from rfl]
    rw [putPtr_small hT64]
    have w1 : wread (PUTw st0 (bp + sb + 16) T) (bp - sp + 16) = some T := by
      rw [wread_PUTw_ne _ ne_a]
      exact h7
    simp only [getPtr_of_wread w1]
    try dsimp only []
    have w2 : wread (PUTw st0 (bp + sb + 16) T) (bp - sp) = some (bp + sb) := by
      rw [wread_PUTw_ne _ ne_b]
      exact h6
    simp only [getPtr_of_wread w2]
    try dsimp only []
    rw [putPtr_small hN64]
  have e1b : wread (PUTw (PUTw st0 (bp + sb + 16) T) T (bp + sb)) (hdrp bp) = some sb := by
    rw [show hdrp bp = bp - 8 from rfl]
    rw [wread_PUTw_ne _ (Ne.symm hT_a)]
    rw [wread_PUTw_ne _ ne_c]
    exact h1
  have eN1 : nextBlkp (PUTw (PUTw st0 (bp + sb + 16) T) T (bp + sb)) bp =
      (bp + sb, PUTw (PUTw st0 (bp + sb + 16) T) T (bp + sb)) := by
    rw [nextBlkp_of_wread e1b, hszsb]
    rfl
  have wS1a : wread (PUTw (PUTw st0 (bp + sb + 16) T) T (bp + sb)) (bp + sb) = some 0 := by
    rw [wread_PUTw_ne _ (Ne.symm hT_f)]
    rw [wread_PUTw_ne _ ne_d]
    exact h8
  have wS1b : wread (PUTw (PUTw st0 (bp + sb + 16) T) T (bp + sb)) (bp + sb + 16) = some T := by
    rw [wread_PUTw_ne _ (Ne.symm hT_g)]
    exact wread_PUTw_self iaA hT64
  have hdel2 : delete (PUTw (PUTw st0 (bp + sb + 16) T) T (bp + sb)) (bp + sb) =
      PUTw { PUTw (PUTw st0 (bp + sb + 16) T) T (bp + sb) with free_listp := T } T 0 := by
    unfold delete
    simp only [getPtr_of_wread wS1a]
    try dsimp only []
    rw [if_neg (show ¬ (0 : Nat) ≠ 0 from fun hx => hx rfl)]
    rw [show addAddr (bp + sb) DSIZE = bp + sb + 16 from rfl]
    simp only [getPtr_of_wread wS1b]
    try dsimp only []
    have wS2a : wread { PUTw (PUTw st0 (bp + sb + 16) T) T (bp + sb) with free_listp := T }
        (bp + sb + 16) = some T := by
      rw [wread_setfl]
      exact wS1b
    have wS2b : wread { PUTw (PUTw st0 (bp + sb + 16) T) T (bp + sb) with free_listp := T }
        (bp + sb) = some 0 := by
      rw [wread_setfl]
      exact wS1a
    simp only [getPtr_of_wread wS2a]
    try dsimp only []
    simp only [getPtr_of_wread wS2b]
    try dsimp only []
    rw [putPtr_small h064]
  have e2b : wread (PUTw { PUTw (PUTw st0 (bp + sb + 16) T) T (bp + sb) with free_listp := T } T 0)
      (subAddr (hdrp bp) WSIZE) = some sp := by
    rw [hadr1]
    rw [wread_PUTw_ne _ (Ne.symm hT_b)]
    rw [wread_setfl]
    rw [wread_PUTw_ne _ (Ne.symm hT_b)]
    rw [wread_PUTw_ne _ ne_e]
    exact h2
  have eP2 : prevBlkp (PUTw { PUTw (PUTw st0 (bp + sb + 16) T) T (bp + sb) with free_listp := T } T 0) bp =
      (bp - sp, PUTw { PUTw (PUTw st0 (bp + sb + 16) T) T (bp + sb) with free_listp := T } T 0) := by
    rw [prevBlkp_of_wread e2b, hszsp]
    rfl
  have wS2c : wread (PUTw { PUTw (PUTw st0 (bp + sb + 16) T) T (bp + sb) with free_listp := T } T 0)
      (bp - sp - 8) = some sp := by
    rw [wread_PUTw_ne _ (Ne.symm hT_c)]
    rw [wread_setfl]
    rw [wread_PUTw_ne _ (Ne.symm hT_c)]
    rw [wread_PUTw_ne _ ne_f]
    exact h3
  have hput4 : PUT (PUTw { PUTw (PUTw st0 (bp + sb + 16) T) T (bp + sb) with free_listp := T } T 0)
      (hdrp (bp - sp)) (sb + sp + sn) =
      PUTw (PUTw { PUTw (PUTw st0 (bp + sb + 16) T) T (bp + sb) with free_listp := T } T 0)
        (bp - sp - 8) (sb + sp + sn) := by
    rw [show hdrp (bp - sp) = bp - sp - 8 from rfl]
    exact PUT_of_wread _ wS2c hspM32 hsumM32
  have wS3aself : wread (PUTw (PUTw { PUTw (PUTw st0 (bp + sb + 16) T) T (bp + sb) with free_listp := T } T 0)
      (bp - sp - 8) (sb + sp + sn)) (hdrp (bp - sp)) = some (sb + sp + sn) := by
    rw [show hdrp (bp - sp) = bp - sp - 8 from rfl]
    exact wread_PUTw_self (by
      simp only [inArena_PUTw, inArena_setfl]
      exact iaC) hsum64
  have eF2 : ftrp (PUTw (PUTw { PUTw (PUTw st0 (bp + sb + 16) T) T (bp + sb) with free_listp := T } T 0)
      (bp - sp - 8) (sb + sp + sn)) (bp - sp) =
      (bp + sb + sn - 16,
       PUTw (PUTw { PUTw (PUTw st0 (bp + sb + 16) T) T (bp + sb) with free_listp := T } T 0)
        (bp - sp - 8) (sb + sp + sn)) := by
    rw [ftrp_of_wread wS3aself, hszsum]
    rw [hadr3]
  have wS3af : wread (PUTw (PUTw { PUTw (PUTw st0 (bp + sb + 16) T) T (bp + sb) with free_listp := T } T 0)
      (bp - sp - 8) (sb + sp + sn)) (bp + sb + sn - 16) = some sn := by
    rw [wread_PUTw_ne _ ne_g]
    rw [wread_PUTw_ne _ (Ne.symm hT_h)]
    rw [wread_setfl]
    rw [wread_PUTw_ne _ (Ne.symm hT_h)]
    rw [wread_PUTw_ne _ ne_h]
    exact h5
  have hput5 : PUT (PUTw (PUTw { PUTw (PUTw st0 (bp + sb + 16) T) T (bp + sb) with free_listp := T } T 0)
      (bp - sp - 8) (sb + sp + sn)) (bp + sb + sn - 16) (sb + sp + sn) =
      PUTw (PUTw (PUTw { PUTw (PUTw st0 (bp + sb + 16) T) T (bp + sb) with free_listp := T } T 0)
        (bp - sp - 8) (sb + sp + sn)) (bp + sb + sn - 16) (sb + sp + sn) :=
    PUT_of_wread _ wS3af hsnM32 hsumM32
  have hmerge : coalesceMerge st0 bp =
      (bp - sp,
       PUTw (PUTw (PUTw { PUTw (PUTw st0 (bp + sb + 16) T) T (bp + sb) with free_listp := T } T 0)
        (bp - sp - 8) (sb + sp + sn)) (bp + sb + sn - 16) (sb + sp + sn)) := by
    unfold coalesceMerge
    rw [eP]
    dsimp only []
    simp only [eF]
    simp only [eA1]
    simp only [eN]
    simp only [eA2]
    simp only [eS0, eS1, eS2]
    simp only [ebeq, bne_self_eq_false, Bool.false_or, Bool.not_false,
      Bool.false_and, Bool.and_true, Bool.and_false, Bool.and_self,
      Bool.false_eq_true, if_false, if_true]
    simp only [eP, eF, eA1, eN, eA2, eS0, eS1, eS2]
    simp only [hdel1, eN1, hdel2, eP2]
    simp only [hmod, PACK_zero]
    simp only [hput4, eF2, hput5]
  have hflS3 : (PUTw (PUTw (PUTw { PUTw (PUTw st0 (bp + sb + 16) T) T (bp + sb) with free_listp := T } T 0)
      (bp - sp - 8) (sb + sp + sn)) (bp + sb + sn - 16) (sb + sp + sn)).free_listp = T := by
    simp only [PUTw_free_listp]
  have hfin : coalesce st0 bp =
      (bp - sp,
       { PUTw (PUTw (PUTw (PUTw (PUTw (PUTw { PUTw (PUTw st0 (bp + sb + 16) T) T (bp + sb) with free_listp := T } T 0)
          (bp - sp - 8) (sb + sp + sn)) (bp + sb + sn - 16) (sb + sp + sn))
          (bp - sp + 16) T) T (bp - sp)) (bp - sp) 0 with free_listp := bp - sp }) := by
    unfold coalesce
    rw [hmerge]
    dsimp only []
    unfold add
    dsimp only []
    rw [show addAddr (bp - sp) DSIZE = bp - sp + 16 from rfl]
    rw [hflS3]
    rw [putPtr_small hT64]
    rw [show (PUTw (PUTw (PUTw (PUTw { PUTw (PUTw st0 (bp + sb + 16) T) T (bp + sb) with free_listp := T } T 0)
      (bp - sp - 8) (sb + sp + sn)) (bp + sb + sn - 16) (sb + sp + sn)) (bp - sp + 16) T).free_listp = T from by
      rw [PUTw_free_listp]
      exact hflS3]
    rw [putPtr_small hP64]
    rw [putPtr_small h064]
  refine ⟨?_, ?_, ?_, ?_, ?_, ?_, ?_, ?_, ?_⟩
  · rw [hfin]
  · rw [hfin]
  · rw [hfin]
    show (PUTw _ (bp - sp) 0).ok = true
    rw [PUTw_ok _ (by
      simp only [inArena_PUTw, inArena_setfl]
      exact iaF)]
    rw [PUTw_ok _ (by
      simp only [inArena_PUTw, inArena_setfl]
      exact iaB)]
    rw [PUTw_ok _ (by
      simp only [inArena_PUTw, inArena_setfl]
      exact iaE)]
    rw [PUTw_ok _ (by
      simp only [inArena_PUTw, inArena_setfl]
      exact iaD)]
    rw [PUTw_ok _ (by
      simp only [inArena_PUTw, inArena_setfl]
      exact iaC)]
    rw [PUTw_ok _ (by
      simp only [inArena_PUTw, inArena_setfl]
      exact iaB)]
    show (PUTw (PUTw st0 (bp + sb + 16) T) T (bp + sb)).ok = true
    rw [PUTw_ok _ (by
      simp only [inArena_PUTw]
      exact iaB)]
    rw [PUTw_ok _ iaA]
    exact hok
  · rw [hfin]
    show wread _ (bp - sp - 8) = _
    rw [wread_setfl]
    rw [wread_PUTw_ne _ ne_i]
    rw [wread_PUTw_ne _ (Ne.symm hT_c)]
    rw [wread_PUTw_ne _ ne_j]
    rw [wread_PUTw_ne _ ne_k]
    rw [hcomm]
    exact wread_PUTw_self (by
      simp only [inArena_PUTw, inArena_setfl]
      exact iaC) hsum64
  · rw [hfin]
    show wread _ (bp + sb + sn - 16) = _
    rw [wread_setfl]
    rw [wread_PUTw_ne _ ne_l]
    rw [wread_PUTw_ne _ (Ne.symm hT_h)]
    rw [wread_PUTw_ne _ ne_m]
    rw [hcomm]
    exact wread_PUTw_self (by
      simp only [inArena_PUTw, inArena_setfl]
      exact iaD) hsum64
  · rw [hfin]
    show wread _ (bp - sp) = _
    rw [wread_setfl]
    exact wread_PUTw_self (by
      simp only [inArena_PUTw, inArena_setfl]
      exact iaF) h064
  · rw [hfin]
    show wread _ (bp - sp + 16) = _
    rw [wread_setfl]
    rw [wread_PUTw_ne _ ne_n]
    rw [wread_PUTw_ne _ (Ne.symm hT_e)]
    exact wread_PUTw_self (by
      simp only [inArena_PUTw, inArena_setfl]
      exact iaE) hT64
  · rw [hfin]
    show wread _ T = _
    rw [wread_setfl]
    rw [wread_PUTw_ne _ hT_d]
    exact wread_PUTw_self (by
      simp only [inArena_PUTw, inArena_setfl]
      exact iaB) hP64
  · intro s b
    unfold coalesce
    rcases hcm : coalesceMerge s b with ⟨x, y⟩
    rfl

end C5

/-- A concrete heap for the case-4 witness: the freed block at 400 has size
48, its previous neighbor (payload 352, header 344, footer 384) and next
neighbor (payload 448, header 440, footer 480) are both free; on the free
list the next block is the head (prev 0) and points to the previous block,
whose `next_free` is the sentinel 32. -/
def c5St : St :=
  { memw := fun a =>
      if a = 392 then 48 else if a = 384 then 48 else if a = 344 then 48
      else if a = 440 then 48 else if a = 480 then 48 else if a = 352 then 448
      else if a = 368 then 32 else if a = 448 then 0 else 0,
    brk := 1000, cap := 1000, heap_listp := 16, free_listp := 448,
    reqs := [], ok := true }

/-- Witness for C5 on `c5St`: coalescing the 48-byte block at 400 merges the
three blocks into one of size 144 at 352 and rewires the free list. -/
theorem c5_coalesce_case4_witness :
    (coalesce c5St 400).1 = 352 ∧
    (coalesce c5St 400).2.free_listp = 352 ∧
    (coalesce c5St 400).2.ok = true ∧
    wread (coalesce c5St 400).2 344 = some 144 ∧
    wread (coalesce c5St 400).2 480 = some 144 ∧
    wread (coalesce c5St 400).2 352 = some 0 ∧
    wread (coalesce c5St 400).2 368 = some 32 := by
  have h := @c5_coalesce_case4 c5St 400 48 48 48 32 (by decide) (by decide) (by decide)
    (by decide) (by decide) (by decide) (by decide) (by decide) (by decide)
    (by decide) (by decide) (by decide) (by decide) (by decide) (by decide)
    (by decide) (by decide) (by decide) (by decide) (by decide) (by decide)
    (by decide)
  exact ⟨h.1, h.2.1, h.2.2.1, h.2.2.2.1, h.2.2.2.2.1, h.2.2.2.2.2.1,
    h.2.2.2.2.2.2.1⟩

end MM
